import Mathlib

/-!
Verification of the deduplication-and-merge engine of `src/script.py`
(expense-updater-py).  The script reconciles CSV transaction records
against two spreadsheet ledgers: it filters noise, detects duplicates
(`row_exists`), merges accepted rows with the existing ledger rows and
re-sorts by date (`merge_and_sort_data`), then overwrites the data range.

Amounts are modelled as rationals (the source uses Python floats; the
0.01-tolerance comparisons are modelled exactly over ℚ).  Spreadsheet
cells read from the store are strings; cells written back are either
strings or numbers (`Cell`), because the script places raw floats in the
amount position of newly built rows.  String primitives (strip, lower,
character removal, splitting) are implemented over character lists so
that every definition evaluates by kernel reduction.
-/

/-- Python's `abs` over the modelled rational amounts. -/
def ratAbs (q : ℚ) : ℚ := if q < 0 then -q else q

/-- Python's `s.strip()` on the character list: leading and trailing
whitespace removed (the ASCII whitespace `Char.isWhitespace` covers the
characters these inputs carry). -/
def trimChars (cs : List Char) : List Char :=
  ((cs.dropWhile Char.isWhitespace).reverse.dropWhile Char.isWhitespace).reverse

/-- Python's `s.lower()` on the character list (ASCII letters). -/
def lowerChars (cs : List Char) : List Char := cs.map Char.toLower

/-- Python's name normalisation used by `row_exists` (src lines 188 and
193): `s.strip().lower()`. -/
def normName (s : String) : String := String.mk (lowerChars (trimChars s.data))

/-- Numeric value of an ASCII digit character. -/
def digitVal (c : Char) : ℕ := c.toNat - 48

/-- Value of a string of ASCII digit characters, most significant first. -/
def digitsToNat (cs : List Char) : ℕ :=
  cs.foldl (fun n c => n * 10 + digitVal c) 0

/-- Splits a character list at the first character satisfying `p`:
returns the part before it and, when such a character exists, the part
after it (the splitting character itself is dropped). -/
def breakAt (p : Char → Bool) : List Char → List Char × Option (List Char)
  | [] => ([], none)
  | c :: cs =>
    if p c then ([], some cs)
    else
      let r := breakAt p cs
      (c :: r.1, r.2)

/-- Optional leading sign: returns (negative?, remaining characters). -/
def parseSign : List Char → Bool × List Char
  | '+' :: cs => (false, cs)
  | '-' :: cs => (true, cs)
  | cs => (false, cs)

/-- Powers of ten as rationals. -/
def pow10 : ℕ → ℚ
  | 0 => 1
  | n + 1 => 10 * pow10 n

/-- Ten to a possibly negative exponent. -/
def pow10z : ℤ → ℚ
  | .ofNat n => pow10 n
  | .negSucc n => 1 / pow10 (n + 1)

/-- Continuation of a Python `digitpart` after its leading digit: any
run of digits in which each underscore is single and sits between two
digits (PEP 515). -/
def digitPartTail : List Char → Bool
  | [] => true
  | '_' :: c :: cs => c.isDigit && digitPartTail cs
  | c :: cs => c.isDigit && digitPartTail cs

/-- Python's `digitpart ::= digit (["_"] digit)*`: nonempty, starts and
ends with a digit, single underscores only between digits. -/
def isDigitPart : List Char → Bool
  | [] => false
  | c :: cs => c.isDigit && digitPartTail cs

/-- Value of a digit group, PEP-515 underscores ignored. -/
def digitPartVal (cs : List Char) : ℕ :=
  digitsToNat (cs.filter fun c => c ≠ '_')

/-- Unsigned decimal mantissa of Python's `float`:
`digitpart ["." [digitpart]]` or `"." digitpart`, each digit group
admitting single underscores between digits. -/
def parseMantissa (cs : List Char) : Option ℚ :=
  let r := breakAt (fun c => c = '.') cs
  match r.2 with
  | none =>
    if isDigitPart r.1 then some (digitPartVal r.1 : ℚ) else none
  | some fp =>
    if (isDigitPart r.1 ∧ (fp = [] ∨ isDigitPart fp))
        ∨ (r.1 = [] ∧ isDigitPart fp) then
      some ((digitPartVal r.1 : ℚ) + (digitPartVal fp : ℚ)
        / pow10 (fp.filter fun c => c ≠ '_').length)
    else none

/-- Signed decimal exponent after `e`/`E` (its digit group also admits
PEP-515 underscores). -/
def parseExp (cs : List Char) : Option ℤ :=
  let r := parseSign cs
  if isDigitPart r.2 then
    some (if r.1 then -(digitPartVal r.2 : ℤ) else (digitPartVal r.2 : ℤ))
  else none

/-- Python's `float` on the numeric-literal fragment of its grammar:
optional sign, mantissa, optional `e`/`E` exponent, digit groups with
PEP-515 underscores.  The `inf`/`nan` forms are folded into parse
failure; in `row_exists` this yields the same scan outcome (the row is
passed over either way, since an infinite or NaN amount never lands
within the 0.01 tolerance).  Python's `float` additionally accepts
Unicode decimal digits and converts Unicode whitespace; those inputs
are outside the modelled character set (`plainAscii` below delimits the
strings on which this parser agrees with `float` exactly, up to the
inf/nan folding). -/
def parseFloat? (cs : List Char) : Option ℚ :=
  let sg := parseSign cs
  let r := breakAt (fun c => c = 'e' ∨ c = 'E') sg.2
  match parseMantissa r.1, r.2 with
  | some m, none => some (if sg.1 then -m else m)
  | some m, some ecs =>
    match parseExp ecs with
    | some e => some ((if sg.1 then -m else m) * pow10z e)
    | none => none
  | none, _ => none

/-- Amount-cell parse of src lines 199–201:
`float(str(row[2]).replace('$', '').replace(',', '').strip())` — every
'$' and ',' removed, ends stripped — returning `none` where the Python
call raises `ValueError`/`TypeError`. -/
def parseMoney (s : String) : Option ℚ :=
  parseFloat? (trimChars ((s.data.filter (fun c => c ≠ '$')).filter
    (fun c => c ≠ ',')))

/-- Printable-ASCII strings: the character set on which `parseMoney`
decides parse failure exactly as the source's `float` call does (Python
additionally accepts Unicode decimal digits and strips exotic
whitespace such as vertical tab, both outside this set; the inf/nan
words parse in Python but can never satisfy the 0.01 tolerance). -/
def plainAscii (s : String) : Bool :=
  s.data.all fun c => 32 ≤ c.toNat ∧ c.toNat ≤ 126

/-- One CSV transaction record as iterated by `row_exists` over `full_df`:
its formatted date string, payee name, and the optional `cost` and
`payment` amounts (`none` stands for a missing column or a NaN cell —
both make the corresponding `hasattr`/`pd.notna` guard fail). -/
structure CsvRecord where
  date : String
  name : String
  cost : Option ℚ
  payment : Option ℚ
deriving DecidableEq

/-- The amount the batch scan of `row_exists` derives for another record
(src lines 215–219): its `cost` when present and positive, otherwise its
`payment` when present and positive, otherwise nothing. -/
def csvRowAmount (r : CsvRecord) : Option ℚ :=
  match r.cost with
  | some c =>
    if 0 < c then some c
    else
      match r.payment with
      | some p => if 0 < p then some p else none
      | none => none
  | none =>
    match r.payment with
    | some p => if 0 < p then some p else none
    | none => none

/-- Ledger scan of `row_exists` (src lines 191–206): for each sheet row of
at least three cells whose normalised name equals the candidate's, parse
the amount cell; on parse failure pass the row over, otherwise match when
the parsed amount is within 0.01 of the candidate's. -/
def row_exists_sheet (nameClean : String) (amountVal : ℚ) :
    List (List String) → Bool
  | [] => false
  | row :: rest =>
    if 3 ≤ row.length then
      if normName (row.getD 1 "") ≠ nameClean then
        row_exists_sheet nameClean amountVal rest
      else
        match parseMoney (row.getD 2 "") with
        | none => row_exists_sheet nameClean amountVal rest
        | some q =>
          if ratAbs (q - amountVal) ≤ 1 / 100 then true
          else row_exists_sheet nameClean amountVal rest
    else row_exists_sheet nameClean amountVal rest

/-- Batch scan of `row_exists` (src lines 209–226): another batch record
matches when its normalised name equals the candidate's, its derived
amount (`csvRowAmount`) is within 0.01 of the candidate's, and its date
string differs from the candidate's. -/
def row_exists_csv (dateStr nameClean : String) (amountVal : ℚ) :
    List CsvRecord → Bool
  | [] => false
  | r :: rest =>
    if normName r.name ≠ nameClean then
      row_exists_csv dateStr nameClean amountVal rest
    else
      match csvRowAmount r with
      | none => row_exists_csv dateStr nameClean amountVal rest
      | some q =>
        if ratAbs (q - amountVal) ≤ 1 / 100 ∧ r.date ≠ dateStr then true
        else row_exists_csv dateStr nameClean amountVal rest

/-- The duplicate detector `row_exists(date_str, name_str, amount_val,
sheet_data, csv_data)` of src lines 186–228: ledger scan first, then the
batch scan, `False` when neither fires. -/
def row_exists (dateStr nameStr : String) (amountVal : ℚ)
    (sheetData : List (List String)) (csvData : List CsvRecord) : Bool :=
  row_exists_sheet (normName nameStr) amountVal sheetData ||
    row_exists_csv dateStr (normName nameStr) amountVal csvData

/-- Log lines emitted by `row_exists`: the function body (src lines
186–228) contains no logger call, so every branch contributes nothing. -/
def row_exists_log_lines (_dateStr _nameStr : String) (_amountVal : ℚ)
    (_sheetData : List (List String)) (_csvData : List CsvRecord) :
    List String := []

/-- Leap-year rule of the proleptic Gregorian calendar `datetime` uses. -/
def isLeapYear (y : ℕ) : Bool := y % 4 = 0 && (y % 100 ≠ 0 || y % 400 = 0)

/-- Days in a month, as `datetime` validates them. -/
def daysInMonth (y m : ℕ) : ℕ :=
  if m = 2 then (if isLeapYear y then 29 else 28)
  else if m = 4 ∨ m = 6 ∨ m = 9 ∨ m = 11 then 30 else 31

/-- Splits a character list on a separator character; mirrors Python's
`s.split(sep)` for a one-character separator. -/
def splitOnChar (sep : Char) : List Char → List (List Char)
  | [] => [[]]
  | c :: cs =>
    if c = sep then [] :: splitOnChar sep cs
    else
      match splitOnChar sep cs with
      | [] => [[c]]
      | g :: gs => (c :: g) :: gs

/-- Modelled from the spec: the `DATE_FORMAT` configuration value (the
spec's configuration surface lists a "date format pattern"; `config.ini`
is not part of src/), instantiated to the ISO year-month-day pattern that
every date in the spec's scenarios uses ("2024-01-05", "2024-02-01", ...).
This is `datetime.strptime(s, DATE_FORMAT)` for that pattern: a 1–4 digit
year 1..9999, 1–2 digit month and day, separated by hyphens, the day
bounded by the month's length; `none` where `strptime` raises
`ValueError`. -/
def parseDate (s : String) : Option (ℕ × ℕ × ℕ) :=
  match splitOnChar '-' s.data with
  | [ys, ms, ds] =>
    if ys ≠ [] ∧ ys.length ≤ 4 ∧ ys.all Char.isDigit
        ∧ ms ≠ [] ∧ ms.length ≤ 2 ∧ ms.all Char.isDigit
        ∧ ds ≠ [] ∧ ds.length ≤ 2 ∧ ds.all Char.isDigit then
      let y := digitsToNat ys
      let m := digitsToNat ms
      let d := digitsToNat ds
      if 1 ≤ y ∧ y ≤ 9999 ∧ 1 ≤ m ∧ m ≤ 12 ∧ 1 ≤ d ∧ d ≤ daysInMonth y m then
        some (y, m, d)
      else none
    else none
  | _ => none

/-- Order-preserving encoding of a calendar date into ℕ (months and days
fit in 5 bits each, so the encoding is strictly monotone in the
lexicographic year-month-day order datetime objects compare by). -/
def encodeDate : ℕ × ℕ × ℕ → ℕ
  | (y, m, d) => y * 512 + m * 32 + d

/-- The sentinel `datetime.min`, i.e. the encoded date 0001-01-01. -/
def DATE_MIN : ℕ := encodeDate (1, 1, 1)

/-- The `date_obj` sort key a row receives in `merge_and_sort_data`
(src lines 251–256): the parsed date, or `datetime.min` when
`strptime` fails. -/
def dateObj (s : String) : ℕ :=
  match parseDate s with
  | some ymd => encodeDate ymd
  | none => DATE_MIN

/-- A spreadsheet cell as the script writes it back: cells copied from
the store are strings, while the amount of a newly queued row is the raw
float the orchestrator stored in its dict. -/
inductive Cell where
  | str (s : String)
  | num (q : ℚ)
deriving DecidableEq

/-- The dict `merge_and_sort_data` builds per row (src lines 237–243 and
285–292): date, name, amount, category, notes (`date_obj` is modelled as
the derived key `mergeKey`, not stored). -/
structure MergeRow where
  date : String
  name : String
  amount : Cell
  category : Cell
  notes : Cell
deriving DecidableEq

/-- Python's `s.strip()` as a string-level operation. -/
def stripStr (s : String) : String := String.mk (trimChars s.data)

/-- An existing sheet row entering the merge (src lines 235–243): kept
only when it has a nonempty first cell; date and name are stripped,
amount/category/notes copied as they are, absent trailing cells
defaulting to the empty string. -/
def mergeRowOfSheet (row : List String) : Option MergeRow :=
  if 1 ≤ row.length ∧ row.getD 0 "" ≠ "" then
    some { date := stripStr (row.getD 0 "")
         , name := stripStr (row.getD 1 "")
         , amount := .str (row.getD 2 "")
         , category := .str (row.getD 3 "")
         , notes := .str (row.getD 4 "") }
  else none

/-- A row the orchestrator queues for a newly accepted transaction
(src lines 285–292 and 331–338): date and name from the record, the
float amount, empty category and notes. -/
structure NewRow where
  date : String
  name : String
  amount : ℚ
  category : String
  notes : String
deriving DecidableEq

/-- The dict of a queued new row as the merge consumes it. -/
def mergeRowOfNew (n : NewRow) : MergeRow :=
  { date := n.date, name := n.name, amount := .num n.amount
  , category := .str n.category, notes := .str n.notes }

/-- The `all_rows` list of `merge_and_sort_data` before sorting
(src lines 232–248): surviving existing rows in input order, then the
new rows in input order. -/
def all_rows (existingData : List (List String)) (newRows : List NewRow) :
    List MergeRow :=
  existingData.filterMap mergeRowOfSheet ++ newRows.map mergeRowOfNew

/-- The sort key of a merge row: its `date_obj`. -/
def mergeKey (r : MergeRow) : ℕ := dateObj r.date

/-- Insertion step of a stable insertion sort: the inserted row goes
before the first later element whose key is not smaller, so a row never
jumps over an equal-key row that preceded it in the input.  Together with
`sortRows` this realises the stable `list.sort(key=lambda x:
x['date_obj'])` of src line 258. -/
def insertRow (a : MergeRow) : List MergeRow → List MergeRow
  | [] => [a]
  | b :: bs =>
    if mergeKey a ≤ mergeKey b then a :: b :: bs else b :: insertRow a bs

/-- Stable sort of the combined rows by `mergeKey` (src line 258). -/
def sortRows : List MergeRow → List MergeRow
  | [] => []
  | a :: l => insertRow a (sortRows l)

/-- Conversion back to a 5-cell list for the sheet write
(src lines 261–269). -/
def renderRow (r : MergeRow) : List Cell :=
  [.str r.date, .str r.name, r.amount, r.category, r.notes]

/-- The merge engine `merge_and_sort_data(existing_data, new_rows)` of
src lines 230–271. -/
def merge_and_sort_data (existingData : List (List String))
    (newRows : List NewRow) : List (List Cell) :=
  (sortRows (all_rows existingData newRows)).map renderRow

/-- The warnings `merge_and_sort_data` logs (src lines 251–256): one
"Invalid date format" line per combined row whose date fails to parse,
in combined-row order. -/
def mergeWarnings (existingData : List (List String))
    (newRows : List NewRow) : List String :=
  (all_rows existingData newRows).filterMap fun r =>
    if parseDate r.date = none then some ("Invalid date format: " ++ r.date)
    else none

/-- The sort key as read back off a rendered output row (its first cell
is always a date string). -/
def rowKey (row : List Cell) : ℕ :=
  match row.getD 0 (.str "") with
  | .str s => dateObj s
  | .num _ => DATE_MIN

/-- Which ledger view a record is processed under: the expense loop reads
`cost`, the income loop reads `payment` (src lines 279–282 and 325–328). -/
inductive Kind where
  | expense
  | income
deriving DecidableEq

/-- The amount column the view reads. -/
def recordAmount (k : Kind) (r : CsvRecord) : Option ℚ :=
  match k with
  | .expense => r.cost
  | .income => r.payment

/-- The view's candidate records: `debts = full_df[cost notna & cost > 0]`
for expenses, `payments = full_df[payment notna & payment > 0]` for income
(src lines 172–173), in batch order. -/
def viewRecords (k : Kind) (batch : List CsvRecord) : List CsvRecord :=
  batch.filter fun r =>
    match recordAmount k r with
    | some v => decide (0 < v)
    | none => false

/-- The new-row queue a view's loop builds (src lines 277–295 and
323–341): one dict with empty category and notes per candidate that
`row_exists` does not flag against the view's sheet data and the full
filtered batch. -/
def queuedNewRows (k : Kind) (sheetData : List (List String))
    (batch : List CsvRecord) : List NewRow :=
  (viewRecords k batch).filterMap fun r =>
    let amt := (recordAmount k r).getD 0
    if row_exists r.date r.name amt sheetData batch then none
    else
      some { date := r.date, name := r.name, amount := amt
           , category := "", notes := "" }

/-- The queue of the expense loop, `new_expense_rows` (src lines 277–295). -/
def new_expense_rows (sheetData : List (List String))
    (batch : List CsvRecord) : List NewRow :=
  queuedNewRows .expense sheetData batch

/-- The queue of the income loop, `new_income_rows` (src lines 323–341). -/
def new_income_rows (sheetData : List (List String))
    (batch : List CsvRecord) : List NewRow :=
  queuedNewRows .income sheetData batch

/-- A store operation the orchestrator performs on a ledger's data range. -/
inductive SheetOp where
  | clearRange
  | writeRange (rows : List (List Cell))
  | formatAmountColumn (numRows : ℕ)
deriving DecidableEq

/-- The store operations one view performs (src lines 297–317 and
343–363): nothing when the queue is empty; otherwise clear the range,
and when the merged data is nonempty write it back and apply currency
formatting over its rows. -/
def processView (k : Kind) (sheetData : List (List String))
    (batch : List CsvRecord) : List SheetOp :=
  let newRows := queuedNewRows k sheetData batch
  if newRows = [] then []
  else
    let merged := merge_and_sort_data sheetData newRows
    if merged = [] then [.clearRange]
    else [.clearRange, .writeRange merged, .formatAmountColumn merged.length]

/-- Matching a regular-expression pattern against the front of a string:
the semantics of `re` matching restricted to patterns built from literal
characters and the metacharacter '.', which matches any single character,
compared case-insensitively (`re.IGNORECASE`). -/
def matchHere : List Char → List Char → Bool
  | [], _ => true
  | _ :: _, [] => false
  | p :: ps, c :: cs => (p = '.' || p.toLower = c.toLower) && matchHere ps cs

/-- Case-insensitive regular-expression search — the semantics of pandas
`Series.str.contains(pat, case=False, na=False)`, whose default is
`regex=True`, i.e. `re.search` with `re.IGNORECASE`: the pattern may
match starting at any position. -/
def reSearch (pat s : String) : Bool :=
  s.data.tails.any fun suffix => matchHere pat.data suffix

/-- The per-record noise-filter condition of src lines 154–166: a record
survives iff for every filter string, it is not the case that the name
matches the filter string without matching any keep account number. -/
def filter_condition (filterStrings keepAccountNumbers : List String)
    (name : String) : Bool :=
  filterStrings.all fun f =>
    !(reSearch f name && !(keepAccountNumbers.any fun k => reSearch k name))

/-- The noise filter `full_df = full_df[filter_condition]` (src line 168):
keeps, in order, the records whose name survives every filter string. -/
def filterTransactions (filterStrings keepAccountNumbers : List String)
    (batch : List CsvRecord) : List CsvRecord :=
  batch.filter fun r => filter_condition filterStrings keepAccountNumbers r.name

/-- Case-insensitive plain-substring containment — the reading the spec
asserts for the noise filter ("case-insensitive substring containment,
not exact match, not regex"), stated here to compare against the
regex-based `reSearch` the source actually performs. -/
def substrCI (pat s : String) : Bool :=
  (lowerChars s.data).tails.any fun suffix =>
    (lowerChars pat.data).isPrefixOf suffix

/-- Whether one sheet row fires the ledger scan for a cleaned name and an
amount. -/
def sheetRowMatch (nameClean : String) (amountVal : ℚ) (row : List String) :
    Bool :=
  decide (3 ≤ row.length) && decide (normName (row.getD 1 "") = nameClean) &&
    (match parseMoney (row.getD 2 "") with
     | some q => decide (ratAbs (q - amountVal) ≤ 1 / 100)
     | none => false)

/-- Whether one batch record fires the batch scan for a candidate's date,
cleaned name and amount. -/
def csvRecordMatch (dateStr nameClean : String) (amountVal : ℚ)
    (r : CsvRecord) : Bool :=
  decide (normName r.name = nameClean) &&
    (match csvRowAmount r with
     | some q => decide (ratAbs (q - amountVal) ≤ 1 / 100 ∧ r.date ≠ dateStr)
     | none => false)

theorem row_exists_sheet_eq_any (n : String) (a : ℚ)
    (l : List (List String)) :
    row_exists_sheet n a l = l.any (sheetRowMatch n a) := by
  induction l with
  | nil => rfl
  | cons row rest ih =>
    rw [row_exists_sheet, List.any_cons, ← ih, sheetRowMatch]
    simp only [List.getD_eq_getElem?_getD]
    by_cases h1 : 3 ≤ row.length
    · by_cases h2 : normName (row[1]?.getD "") = n
      · cases hp : parseMoney (row[2]?.getD "") with
        | none => simp [h1, h2, hp]
        | some q =>
          by_cases h3 : ratAbs (q - a) ≤ 1 / 100
          · simp [h1, h2, hp, h3]
          · simp [h1, h2, hp, h3]
      · simp [h1, h2]
    · simp [h1]

theorem row_exists_csv_eq_any (d n : String) (a : ℚ) (l : List CsvRecord) :
    row_exists_csv d n a l = l.any (csvRecordMatch d n a) := by
  induction l with
  | nil => rfl
  | cons r rest ih =>
    rw [row_exists_csv, List.any_cons, ← ih, csvRecordMatch]
    by_cases h1 : normName r.name = n
    · cases hp : csvRowAmount r with
      | none => simp [h1, hp]
      | some q =>
        by_cases h2 : ratAbs (q - a) ≤ 1 / 100 ∧ r.date ≠ d
        · simp [h1, hp, h2]
        · simp [h1, hp, h2]
    · simp [h1]

/-- C1.  For every candidate transaction and every ledger row whose
normalized (trimmed, lowercased) name equals the candidate's and whose
amount cell, after stripping '$' and ',', parses to a decimal within 0.01
of the candidate's amount, `row_exists` returns true — the candidate's
date string and the ledger row's date cell are arbitrary, because the
ledger scan never reads them. -/
theorem ledger_scan_matches_regardless_of_dates
    (dateStr nameStr : String) (amountVal : ℚ)
    (sheetData : List (List String)) (csvData : List CsvRecord)
    (row : List String) (q : ℚ)
    (hmem : row ∈ sheetData) (hlen : 3 ≤ row.length)
    (hname : normName (row.getD 1 "") = normName nameStr)
    (hq : parseMoney (row.getD 2 "") = some q)
    (hclose : ratAbs (q - amountVal) ≤ 1 / 100) :
    row_exists dateStr nameStr amountVal sheetData csvData = true := by
  have hrow : sheetRowMatch (normName nameStr) amountVal row = true := by
    rw [sheetRowMatch, hq]
    simp only [Bool.and_eq_true, decide_eq_true_eq]
    exact ⟨⟨hlen, hname⟩, hclose⟩
  have hsheet : row_exists_sheet (normName nameStr) amountVal sheetData
      = true := by
    rw [row_exists_sheet_eq_any]
    exact List.any_eq_true.mpr ⟨row, hmem, hrow⟩
  rw [row_exists, hsheet, Bool.true_or]

unseal Rat.add Rat.sub Rat.mul Rat.inv in
/-- Witness for C1: a ledger row and a candidate with different dates and
differently capitalised, untrimmed names still match on name+amount. -/
theorem ledger_scan_matches_regardless_of_dates_witness :
    row_exists "1999-12-31" "  COFFEE SHOP " (9 / 2)
      [["2024-01-05", "Coffee Shop", "$4.50", "", ""]] [] = true :=
  ledger_scan_matches_regardless_of_dates "1999-12-31" "  COFFEE SHOP "
    (9 / 2) [["2024-01-05", "Coffee Shop", "$4.50", "", ""]] []
    ["2024-01-05", "Coffee Shop", "$4.50", "", ""] (9 / 2)
    (by decide) (by decide) (by decide) (by decide) (by decide)

theorem csvRecordMatch_eq_true (dateStr nameClean : String) (amountVal : ℚ)
    (r : CsvRecord) :
    csvRecordMatch dateStr nameClean amountVal r = true ↔
      normName r.name = nameClean ∧
        ∃ q, csvRowAmount r = some q ∧ ratAbs (q - amountVal) ≤ 1 / 100 ∧
          r.date ≠ dateStr := by
  rw [csvRecordMatch]
  cases hp : csvRowAmount r with
  | none => simp [hp]
  | some q => simp [hp, and_assoc]

/-- C2.  The batch scan declares a duplicate iff some batch record has
the candidate's normalized name, carries a derived positive amount
(`csvRowAmount`: its cost when present and positive, otherwise its
payment when present and positive) within 0.01 of the candidate's
amount, AND has a date different from the candidate's; in particular a
record agreeing on name and amount but sharing the candidate's date
never fires this rule. -/
theorem batch_scan_duplicate_iff (dateStr nameStr : String) (amountVal : ℚ)
    (batch : List CsvRecord) :
    row_exists_csv dateStr (normName nameStr) amountVal batch = true ↔
      ∃ r ∈ batch, normName r.name = normName nameStr ∧
        ∃ q, csvRowAmount r = some q ∧ ratAbs (q - amountVal) ≤ 1 / 100 ∧
          r.date ≠ dateStr := by
  rw [row_exists_csv_eq_any, List.any_eq_true]
  constructor
  · rintro ⟨r, hr, hm⟩
    exact ⟨r, hr, (csvRecordMatch_eq_true dateStr (normName nameStr)
      amountVal r).mp hm⟩
  · rintro ⟨r, hr, hm⟩
    exact ⟨r, hr, (csvRecordMatch_eq_true dateStr (normName nameStr)
      amountVal r).mpr hm⟩

unseal Rat.add Rat.sub Rat.mul Rat.inv in
/-- Spot check of C2 on the spec's overlapping-export scenario: the
second ACME record is flagged against the first (different dates), but a
record is never flagged against an equal-dated copy of itself. -/
theorem batch_scan_duplicate_iff_witness :
    row_exists_csv "2024-03-02" (normName "ACME") 50
      [{ date := "2024-03-01", name := "ACME", cost := some 50
       , payment := none }] = true ∧
    row_exists_csv "2024-03-01" (normName "ACME") 50
      [{ date := "2024-03-01", name := "ACME", cost := some 50
       , payment := none }] = false := by
  constructor
  · exact (batch_scan_duplicate_iff "2024-03-02" "ACME" 50 _).mpr
      ⟨{ date := "2024-03-01", name := "ACME", cost := some 50
       , payment := none }, by decide, by decide, 50, by decide, by decide,
         by decide⟩
  · decide

/-- C6 (amended).  A ledger row whose normalized name matches the
candidate's but whose amount cell fails to parse is simply passed over:
deleting it from the sheet data does not change `row_exists`, no error
is raised (the function is total), and — unlike what the claim states —
no log line records the skip, since `row_exists` contains no logging
call.  The `plainAscii` guard keeps the statement on the character set
where the modelled parser decides failure exactly as the source's
`float` call (Python also accepts PEP-515 underscores — which the model
parses too — plus Unicode digits and exotic whitespace, the latter two
outside the model). -/
theorem unparseable_amount_row_skipped
    (dateStr nameStr : String) (amountVal : ℚ)
    (s1 s2 : List (List String)) (row : List String)
    (csvData : List CsvRecord)
    (hlen : 3 ≤ row.length)
    (hname : normName (row.getD 1 "") = normName nameStr)
    (hplain : plainAscii (row.getD 2 "") = true)
    (hq : parseMoney (row.getD 2 "") = none) :
    row_exists dateStr nameStr amountVal (s1 ++ row :: s2) csvData =
      row_exists dateStr nameStr amountVal (s1 ++ s2) csvData ∧
    row_exists_log_lines dateStr nameStr amountVal (s1 ++ row :: s2)
      csvData = [] := by
  refine ⟨?_, rfl⟩
  rw [row_exists, row_exists, row_exists_sheet_eq_any, row_exists_sheet_eq_any,
    List.any_append, List.any_cons, List.any_append]
  have hrow : sheetRowMatch (normName nameStr) amountVal row = false := by
    rw [sheetRowMatch, hq]
    simp
  rw [hrow, Bool.false_or]

unseal Rat.add Rat.sub Rat.mul Rat.inv in
/-- Witness for C6: a sheet holding a matching-name row with amount cell
"N/A" behaves exactly as the sheet without it. -/
theorem unparseable_amount_row_skipped_witness :
    (row_exists "2024-01-05" "Coffee Shop" (9 / 2)
        ([] ++ ["2024-01-05", "coffee shop", "N/A"] ::
          [["2024-01-05", "Coffee Shop", "$4.50", "", ""]]) [] =
      row_exists "2024-01-05" "Coffee Shop" (9 / 2)
        ([] ++ [["2024-01-05", "Coffee Shop", "$4.50", "", ""]]) []) ∧
    row_exists_log_lines "2024-01-05" "Coffee Shop" (9 / 2)
      ([] ++ ["2024-01-05", "coffee shop", "N/A"] ::
        [["2024-01-05", "Coffee Shop", "$4.50", "", ""]]) [] = [] :=
  unparseable_amount_row_skipped "2024-01-05" "Coffee Shop" (9 / 2)
    [] [["2024-01-05", "Coffee Shop", "$4.50", "", ""]]
    ["2024-01-05", "coffee shop", "N/A"] []
    (by decide) (by decide) (by decide) (by decide)

unseal Rat.add Rat.sub Rat.mul Rat.inv in
/-- Counterexample to C6 as stated: the skip of a matching-name row with
an unparseable amount cell produces no log line at all (`row_exists` has
no logging statement), while the claim says the skip is logged; the row
is indeed passed over without a match and without an error. -/
theorem unparseable_amount_skip_unlogged :
    parseMoney "N/A" = none ∧
    normName "coffee shop" = normName "Coffee Shop" ∧
    row_exists "2024-01-05" "Coffee Shop" 4
      [["2024-01-05", "coffee shop", "N/A"]] [] = false ∧
    row_exists_log_lines "2024-01-05" "Coffee Shop" 4
      [["2024-01-05", "coffee shop", "N/A"]] [] = [] := by
  refine ⟨by decide, by decide, by decide, rfl⟩

/-- C3 (code evaluated at the failing input).  The noise filter treats a
filter string as a regular expression, not as a plain substring: pandas
`str.contains` defaults to `regex=True`, so the filter string "a.c"
drops a record named "abc" ('.' matches 'b'), although "a.c" is not a
substring of "abc" — under the spec's plain-substring reading the record
would be retained. -/
theorem noise_filter_regex_not_substring :
    filterTransactions ["a.c"] []
      [{ date := "2024-01-05", name := "abc", cost := some 1
       , payment := none }] = [] ∧
    substrCI "a.c" "abc" = false := by
  refine ⟨by decide, by decide⟩

theorem insertRow_perm (a : MergeRow) (l : List MergeRow) :
    (insertRow a l).Perm (a :: l) := by
  induction l with
  | nil => exact List.Perm.refl _
  | cons b bs ih =>
    rw [insertRow]
    split
    · exact List.Perm.refl _
    · exact (List.Perm.cons b ih).trans (List.Perm.swap a b bs)

theorem sortRows_perm (l : List MergeRow) : (sortRows l).Perm l := by
  induction l with
  | nil => exact List.Perm.refl _
  | cons a l ih =>
    rw [sortRows]
    exact (insertRow_perm a (sortRows l)).trans (List.Perm.cons a ih)

theorem insertRow_sorted (a : MergeRow) (l : List MergeRow)
    (h : l.Pairwise (fun x y => mergeKey x ≤ mergeKey y)) :
    (insertRow a l).Pairwise (fun x y => mergeKey x ≤ mergeKey y) := by
  induction l with
  | nil => simp [insertRow]
  | cons b bs ih =>
    rcases List.pairwise_cons.mp h with ⟨hb, hbs⟩
    rw [insertRow]
    split
    · rename_i hab
      refine List.pairwise_cons.mpr ⟨?_, h⟩
      intro x hx
      rcases List.mem_cons.mp hx with rfl | hx
      · exact hab
      · exact hab.trans (hb x hx)
    · rename_i hab
      refine List.pairwise_cons.mpr ⟨?_, ih hbs⟩
      intro x hx
      rcases List.mem_cons.mp ((insertRow_perm a bs).mem_iff.mp hx) with
        rfl | hx
      · exact le_of_lt (lt_of_not_le hab)
      · exact hb x hx

theorem sortRows_sorted (l : List MergeRow) :
    (sortRows l).Pairwise (fun x y => mergeKey x ≤ mergeKey y) := by
  induction l with
  | nil => exact List.Pairwise.nil
  | cons a l ih => exact insertRow_sorted a (sortRows l) ih

theorem insertRow_filter_key (a : MergeRow) (l : List MergeRow) (k : ℕ) :
    (insertRow a l).filter (fun r => mergeKey r == k) =
      if mergeKey a == k then a :: l.filter (fun r => mergeKey r == k)
      else l.filter (fun r => mergeKey r == k) := by
  induction l with
  | nil =>
    rw [insertRow]
    by_cases hk : mergeKey a == k
    · simp [List.filter, hk]
    · simp [List.filter, hk]
  | cons b bs ih =>
    rw [insertRow]
    split
    · rw [List.filter_cons]
    · rename_i hab
      rw [List.filter_cons, ih, List.filter_cons]
      by_cases hak : mergeKey a == k
      · have hbk : (mergeKey b == k) = false := by
          have h1 : mergeKey b < mergeKey a := lt_of_not_le hab
          have h2 : mergeKey a = k := eq_of_beq hak
          simp only [beq_eq_false_iff_ne, ne_eq]
          omega
        simp [hak, hbk]
      · by_cases hbk : mergeKey b == k
        · simp [hak, hbk]
        · simp [hak, hbk]

theorem sortRows_filter_key (l : List MergeRow) (k : ℕ) :
    (sortRows l).filter (fun r => mergeKey r == k) =
      l.filter (fun r => mergeKey r == k) := by
  induction l with
  | nil => rfl
  | cons a l ih =>
    rw [sortRows, insertRow_filter_key, List.filter_cons, ih]

theorem sortRows_of_sorted (l : List MergeRow)
    (h : l.Pairwise (fun x y => mergeKey x ≤ mergeKey y)) : sortRows l = l := by
  induction l with
  | nil => rfl
  | cons a l ih =>
    rcases List.pairwise_cons.mp h with ⟨ha, hl⟩
    rw [sortRows, ih hl]
    cases l with
    | nil => rfl
    | cons b bs => rw [insertRow, if_pos (ha b (List.mem_cons_self b bs))]

theorem rowKey_renderRow (r : MergeRow) : rowKey (renderRow r) = mergeKey r :=
  rfl

/-- C4.  The merge output is sorted ascending by parsed date, and the
sort is stable: restricted to any fixed parsed-date value, the output
rows are exactly the pre-sort combined rows (surviving existing rows in
input order, then new rows in input order) carrying that date, in that
order. -/
theorem merge_output_sorted_and_stable (ex : List (List String))
    (new : List NewRow) :
    List.Sorted (· ≤ ·) ((merge_and_sort_data ex new).map rowKey) ∧
    ∀ k : ℕ, (merge_and_sort_data ex new).filter (fun row => rowKey row == k)
      = ((all_rows ex new).map renderRow).filter (fun row => rowKey row == k)
    := by
  constructor
  · rw [merge_and_sort_data, List.map_map]
    have hcomp : rowKey ∘ renderRow = mergeKey := funext rowKey_renderRow
    rw [hcomp, List.Sorted, List.pairwise_map]
    exact sortRows_sorted _
  · intro k
    rw [merge_and_sort_data, List.filter_map, List.filter_map]
    have hcomp : ((fun row => rowKey row == k) ∘ renderRow)
        = fun r => mergeKey r == k := by
      funext r
      simp [Function.comp, rowKey_renderRow]
    rw [hcomp]
    exact congrArg _ (sortRows_filter_key _ k)

theorem parseDate_pos (s : String) (y m d : ℕ)
    (h : parseDate s = some (y, m, d)) : 1 ≤ y ∧ 1 ≤ m ∧ 1 ≤ d := by
  rw [parseDate] at h
  split at h
  · dsimp only at h
    split_ifs at h with h1 h2
    simp only [Option.some.injEq, Prod.mk.injEq] at h
    obtain ⟨rfl, rfl, rfl⟩ := h
    exact ⟨h2.1, h2.2.2.1, h2.2.2.2.2.1⟩
  · exact absurd h (by simp)

theorem DATE_MIN_le_dateObj (s : String) : DATE_MIN ≤ dateObj s := by
  rw [dateObj]
  cases hp : parseDate s with
  | none => exact le_refl _
  | some ymd =>
    rcases ymd with ⟨y, m, d⟩
    obtain ⟨hy, hm, hd⟩ := parseDate_pos s y m d hp
    simp only [DATE_MIN, encodeDate]
    omega

unseal Rat.add Rat.sub Rat.mul Rat.inv in
/-- Counterexample to C7 as stated: "0001-01-01" parses to the minimum
representable date, so a row with an unparseable date — which receives
exactly that minimum as its sentinel — does not sort strictly before it:
here the unparseable "not-a-date" row stays after the parseable
"0001-01-01" row in the merge output. -/
theorem unparseable_date_sentinel_tie :
    parseDate "0001-01-01" = some (1, 1, 1) ∧
    parseDate "not-a-date" = none ∧
    merge_and_sort_data
        [["0001-01-01", "A", "", "", ""], ["not-a-date", "B", "", "", ""]] []
      = [[Cell.str "0001-01-01", Cell.str "A", Cell.str "", Cell.str "",
          Cell.str ""],
         [Cell.str "not-a-date", Cell.str "B", Cell.str "", Cell.str "",
          Cell.str ""]] := by
  refine ⟨by decide, by decide, by decide⟩

/-- C7 (amended).  Every combined row whose date string fails to parse
receives the minimum representable date as its sort key, is kept in the
output (the merge completes normally, its rows a permutation of the
combined rows), triggers a warning, and sorts before every row whose
parsed date is strictly after the minimum: minimum-keyed rows — which
include every unparseable-dated row — form a prefix of the output, rows
parsing to exactly the minimum date tying with them in input order. -/
theorem unparseable_date_sentinel_behaviour (ex : List (List String))
    (new : List NewRow) :
    (∀ s, parseDate s = none → dateObj s = DATE_MIN) ∧
    (merge_and_sort_data ex new).Perm ((all_rows ex new).map renderRow) ∧
    (∀ r ∈ all_rows ex new, parseDate r.date = none →
      ("Invalid date format: " ++ r.date) ∈ mergeWarnings ex new) ∧
    List.Pairwise (fun row1 row2 => rowKey row2 = DATE_MIN →
      rowKey row1 = DATE_MIN) (merge_and_sort_data ex new) := by
  refine ⟨?_, ?_, ?_, ?_⟩
  · intro s h
    rw [dateObj, h]
  · exact (sortRows_perm (all_rows ex new)).map renderRow
  · intro r hr hnone
    rw [mergeWarnings]
    exact List.mem_filterMap.mpr ⟨r, hr, by rw [if_pos hnone]⟩
  · rw [merge_and_sort_data, List.pairwise_map]
    refine (sortRows_sorted (all_rows ex new)).imp ?_
    intro a b hab hb
    have hb' : mergeKey b = DATE_MIN := hb
    exact le_antisymm (hab.trans_eq hb') (DATE_MIN_le_dateObj a.date)

theorem mergeRowOfSheet_eq (row : List String) :
    mergeRowOfSheet row =
      if row.getD 0 "" = "" then none
      else some { date := stripStr (row.getD 0 "")
                , name := stripStr (row.getD 1 "")
                , amount := .str (row.getD 2 "")
                , category := .str (row.getD 3 "")
                , notes := .str (row.getD 4 "") } := by
  rw [mergeRowOfSheet]
  by_cases h : row.getD 0 "" = ""
  · rw [if_pos h, if_neg]
    intro hc
    exact hc.2 h
  · rw [if_neg h, if_pos]
    refine ⟨?_, h⟩
    cases row with
    | nil => exact absurd rfl h
    | cons a l => exact Nat.succ_le_succ (Nat.zero_le _)

/-- C10.  The merge output is a permutation of: one 5-cell row per
existing input row with a present, nonempty first cell — its date and
name whitespace-stripped, its amount, category and notes cells copied
verbatim — plus one rendered row per new row; existing rows whose first
cell is absent or empty contribute nothing at all. -/
theorem merge_existing_field_treatment (ex : List (List String))
    (new : List NewRow) :
    (merge_and_sort_data ex new).Perm
      ((ex.filterMap fun row =>
          if row.getD 0 "" = "" then none
          else some [Cell.str (stripStr (row.getD 0 "")),
                     Cell.str (stripStr (row.getD 1 "")),
                     Cell.str (row.getD 2 ""), Cell.str (row.getD 3 ""),
                     Cell.str (row.getD 4 "")]) ++
        new.map fun n => [Cell.str n.date, Cell.str n.name,
          Cell.num n.amount, Cell.str n.category, Cell.str n.notes]) := by
  have h1 : (merge_and_sort_data ex new).Perm ((all_rows ex new).map renderRow)
    := (sortRows_perm (all_rows ex new)).map renderRow
  refine h1.trans (List.Perm.of_eq ?_)
  rw [all_rows, List.map_append, List.map_filterMap, List.map_map]
  congr 1
  apply List.filterMap_congr
  intro row _
  rw [mergeRowOfSheet_eq]
  by_cases h : row.getD 0 "" = ""
  · rw [if_pos h, if_pos h]
    rfl
  · rw [if_neg h, if_neg h]
    rfl

theorem mergeRowOfSheet_pad_take (row : List String) :
    mergeRowOfSheet ((row ++ List.replicate 5 "").take 5)
      = mergeRowOfSheet row := by
  rw [mergeRowOfSheet_eq, mergeRowOfSheet_eq]
  rcases row with _ | ⟨a, _ | ⟨b, _ | ⟨c, _ | ⟨d, _ | ⟨e, rest⟩⟩⟩⟩⟩
  · rfl
  · rfl
  · rfl
  · rfl
  · rfl
  · rfl

/-- C9.  Every merge output row has exactly 5 cells; existing input rows
are read only through their first five cells, shorter rows behaving as if
padded with empty strings (so truncating or padding every input row to
exactly 5 cells leaves the output unchanged); and every row the
orchestrator queues carries empty category and notes. -/
theorem merge_rows_five_cells (ex : List (List String)) (new : List NewRow) :
    (∀ row ∈ merge_and_sort_data ex new, row.length = 5) ∧
    merge_and_sort_data (ex.map fun row => (row ++ List.replicate 5 "").take 5)
      new = merge_and_sort_data ex new ∧
    ∀ (k : Kind) (sheetData : List (List String)) (batch : List CsvRecord),
      ∀ n ∈ queuedNewRows k sheetData batch, n.category = "" ∧ n.notes = ""
    := by
  refine ⟨?_, ?_, ?_⟩
  · intro row hrow
    rcases List.mem_map.mp hrow with ⟨r, _, rfl⟩
    rfl
  · rw [merge_and_sort_data, merge_and_sort_data, all_rows, all_rows,
      List.filterMap_map]
    have hfm : List.filterMap
        (mergeRowOfSheet ∘ fun row => (row ++ List.replicate 5 "").take 5) ex
        = List.filterMap mergeRowOfSheet ex :=
      List.filterMap_congr fun row _ => mergeRowOfSheet_pad_take row
    rw [hfm]
  · intro k sheetData batch n hn
    rw [queuedNewRows] at hn
    rcases List.mem_filterMap.mp hn with ⟨r, _, hsome⟩
    dsimp only at hsome
    split at hsome
    · exact absurd hsome (by simp)
    · cases hsome
      exact ⟨rfl, rfl⟩

unseal Rat.add Rat.sub Rat.mul Rat.inv in
/-- Spot check of C9: a 1-cell existing row and a 7-cell existing row
merge to 5-cell rows exactly as their pad/truncations do, and a queued
row carries empty category and notes. -/
theorem merge_rows_five_cells_witness :
    ((merge_and_sort_data
        [["2024-01-05"], ["2024-01-06", "N", "1", "c", "t", "x", "y"]]
        []).map List.length = [5, 5]) ∧
    merge_and_sort_data
        [["2024-01-05", "", "", "", ""], ["2024-01-06", "N", "1", "c", "t"]]
        [] =
      merge_and_sort_data
        [["2024-01-05"], ["2024-01-06", "N", "1", "c", "t", "x", "y"]] [] ∧
    queuedNewRows .expense []
        [{ date := "2024-02-01", name := "Rent", cost := some 1200
         , payment := none }] =
      [{ date := "2024-02-01", name := "Rent", amount := 1200
       , category := "", notes := "" }] := by
  refine ⟨by decide, ?_, by decide⟩
  have h := (merge_rows_five_cells
    [["2024-01-05"], ["2024-01-06", "N", "1", "c", "t", "x", "y"]] []).2.1
  have hmap : ([["2024-01-05"],
      ["2024-01-06", "N", "1", "c", "t", "x", "y"]].map fun row =>
        (row ++ List.replicate 5 "").take 5) =
      [["2024-01-05", "", "", "", ""], ["2024-01-06", "N", "1", "c", "t"]] :=
    by decide
  rw [hmap] at h
  exact h

unseal Rat.add Rat.sub Rat.mul Rat.inv in
/-- Counterexample to C8 as stated: a 1-cell existing row with an
already-sorted, parseable date is not returned unchanged — the merge
pads it to 5 cells — so merging an empty new-rows set is not the
identity on the rows themselves. -/
theorem merge_empty_new_not_identity :
    merge_and_sort_data [["2024-01-05"]] [] ≠ [[Cell.str "2024-01-05"]] := by
  decide

theorem filterMap_mergeRowOfSheet_of_clean (ex : List (List String))
    (h : ∀ row ∈ ex, stripStr (row.getD 0 "") = row.getD 0 ""
      ∧ row.getD 0 "" ≠ "" ∧ stripStr (row.getD 1 "") = row.getD 1 "") :
    ex.filterMap mergeRowOfSheet = ex.map fun row =>
      { date := row.getD 0 "", name := row.getD 1 ""
      , amount := .str (row.getD 2 ""), category := .str (row.getD 3 "")
      , notes := .str (row.getD 4 "") } := by
  induction ex with
  | nil => rfl
  | cons r rs ih =>
    obtain ⟨hd, hne, hn⟩ := h r (List.mem_cons_self r rs)
    have hsome : mergeRowOfSheet r = some
        { date := r.getD 0 "", name := r.getD 1 ""
        , amount := .str (r.getD 2 ""), category := .str (r.getD 3 "")
        , notes := .str (r.getD 4 "") } := by
      rw [mergeRowOfSheet_eq, if_neg hne, hd, hn]
    rw [List.filterMap_cons_some hsome, List.map_cons,
      ih fun row hrow => h row (List.mem_cons_of_mem r hrow)]

/-- C8 (amended).  Merging an empty new-rows set returns the existing
rows in their original relative order whenever their parsed dates are
already ascending; the rows themselves come back unchanged (up to the
string-cell injection) provided they are already in the merge's
normal form — exactly 5 cells, nonempty date, no leading or trailing
whitespace on date or name.  (The counterexample shows the normal-form
proviso is necessary: shorter rows are padded, so the merge is not the
identity on arbitrary already-sorted input.) -/
theorem merge_empty_new_identity (ex : List (List String))
    (hshape : ∀ row ∈ ex, row.length = 5
      ∧ stripStr (row.getD 0 "") = row.getD 0 "" ∧ row.getD 0 "" ≠ ""
      ∧ stripStr (row.getD 1 "") = row.getD 1 "")
    (hsorted : List.Pairwise
      (fun r s => dateObj (r.getD 0 "") ≤ dateObj (s.getD 0 "")) ex) :
    merge_and_sort_data ex [] = ex.map fun row => row.map Cell.str := by
  rw [merge_and_sort_data, all_rows, List.map_nil, List.append_nil,
    filterMap_mergeRowOfSheet_of_clean ex
      (fun row hrow => ((hshape row hrow).2 : _ ∧ _ ∧ _)),
    sortRows_of_sorted, List.map_map]
  · apply List.map_congr_left
    intro row hrow
    obtain ⟨hlen, -, -, -⟩ := hshape row hrow
    rcases row with _ | ⟨a, _ | ⟨b, _ | ⟨c, _ | ⟨d, _ | ⟨e, rest⟩⟩⟩⟩⟩
    · simp at hlen
    · simp at hlen
    · simp at hlen
    · simp at hlen
    · simp at hlen
    · have : rest = [] := by
        rw [List.length_cons, List.length_cons, List.length_cons,
          List.length_cons, List.length_cons] at hlen
        exact List.eq_nil_of_length_eq_zero (by omega)
      subst this
      rfl
  · rw [List.pairwise_map]
    exact hsorted

unseal Rat.add Rat.sub Rat.mul Rat.inv in
/-- Witness for C8 (amended): two normal-form rows with ascending dates
come back exactly as they went in. -/
theorem merge_empty_new_identity_witness :
    merge_and_sort_data
        [["2024-01-05", "Coffee Shop", "$4.50", "", ""],
         ["2024-02-01", "Rent", "$1,200.00", "", ""]] [] =
      [["2024-01-05", "Coffee Shop", "$4.50", "", ""],
       ["2024-02-01", "Rent", "$1,200.00", "", ""]].map
        fun row => row.map Cell.str :=
  merge_empty_new_identity
    [["2024-01-05", "Coffee Shop", "$4.50", "", ""],
     ["2024-02-01", "Rent", "$1,200.00", "", ""]]
    (by decide) (by decide)

/-- C5.  When the duplicate detector flags every candidate of a view,
the view's queue stays empty and the orchestrator performs no store
operation at all on that ledger's data range: no clear, no write, no
formatting. -/
theorem no_write_when_all_duplicates (k : Kind)
    (sheetData : List (List String)) (batch : List CsvRecord)
    (h : ∀ r ∈ viewRecords k batch,
      row_exists r.date r.name ((recordAmount k r).getD 0) sheetData batch
        = true) :
    processView k sheetData batch = [] := by
  have hq : queuedNewRows k sheetData batch = [] := by
    rw [queuedNewRows, List.filterMap_eq_nil_iff]
    intro r hr
    simp [h r hr]
  rw [processView]
  simp [hq]

unseal Rat.add Rat.sub Rat.mul Rat.inv in
/-- Witness for C5, the spec's scenario: the one candidate duplicates an
existing ledger row, so nothing is cleared, written or formatted. -/
theorem no_write_when_all_duplicates_witness :
    processView .expense [["2024-01-05", "Coffee Shop", "$4.50", "", ""]]
      [{ date := "2024-01-05", name := "Coffee Shop", cost := some (9 / 2)
       , payment := none }] = [] :=
  no_write_when_all_duplicates .expense
    [["2024-01-05", "Coffee Shop", "$4.50", "", ""]]
    [{ date := "2024-01-05", name := "Coffee Shop", cost := some (9 / 2)
     , payment := none }]
    (by decide)
